import Mathlib

/-
Verification development for the AI-Vision emergency-lighting detection
service (src/app.py, src/utils.py).  The pipeline parts that the claims
concern are shallowly embedded below: Python strings become Lean `String`,
Python dicts become insertion-ordered association lists, and the two
grouping code paths (the inline grouping in `background_process` of
app.py and `group_lights` of utils.py) become pure Lean functions.
-/

namespace AIVision

/-- Python `str.isspace` character class (ASCII fragment), as used by
`str.strip()` and `str.split()` with no arguments. -/
def pyIsSpace (c : Char) : Bool :=
  c = ' ' || c = '\t' || c = '\n' || c = '\r' || c = '\x0b' || c = '\x0c'

/-- Remove leading and trailing characters satisfying `p` from a string,
mirroring Python's `str.strip(chars)`. -/
def stripEnds (p : Char → Bool) (s : String) : String :=
  String.mk (((s.toList.dropWhile p).reverse.dropWhile p).reverse)

/-- Python `str.strip()` with no arguments: trim whitespace on both ends. -/
def pyStrip (s : String) : String := stripEnds pyIsSpace s

/-- Helper for `pySplit`: scan the characters, accumulating the current
token in reverse; whitespace ends the token (empty tokens are dropped). -/
def pySplitAux : List Char → List Char → List String
  | [], acc => if acc.isEmpty then [] else [String.mk acc.reverse]
  | c :: rest, acc =>
      if pyIsSpace c then
        if acc.isEmpty then pySplitAux rest []
        else String.mk acc.reverse :: pySplitAux rest []
      else pySplitAux rest (c :: acc)

/-- Python `str.split()` with no arguments: split on runs of whitespace,
discarding empty tokens. -/
def pySplit (s : String) : List String := pySplitAux s.toList []

/-- Python `str.isalnum()` (ASCII fragment): nonempty and every character
alphanumeric. -/
def pyIsAlnum (s : String) : Bool :=
  !s.toList.isEmpty && s.toList.all Char.isAlphanum

/-- Python `str.isupper()` (ASCII fragment): at least one cased character
and no lowercase character. -/
def pyIsUpper (s : String) : Bool :=
  s.toList.any Char.isAlpha && s.toList.all (fun c => !c.isLower)

/-- Python `s.replace(a, b)` for single characters `a`, `b`: since the
pattern and the replacement are both one character long, the sequential
scan of `str.replace` is exactly a character map. -/
def subChar (a b : Char) (s : String) : String :=
  String.mk (s.toList.map (fun c => if c = a then b else c))

/-- A record of the extracted rulebook: either a free-text note or one
row of the lighting schedule table (utils.py `extract_notes_and_table`). -/
inductive RulebookItem : Type
  | note (text : String) (sourceSheet : String)
  | tableRow (symbol : String) (description : String) (sourceSheet : String)
deriving DecidableEq

/-- One detection record as built in `background_process` (app.py):
symbol, bounding box, nearby text and source sheet. -/
structure Detection : Type where
  symbol : String
  boundingBox : Int × Int × Int × Int
  textNearby : String
  sourceSheet : String
deriving DecidableEq

/-- Lookup in an insertion-ordered association list (Python dict read):
first entry with the key wins; keys are unique by construction wherever
this is used. -/
def assocGet {α : Type} : List (String × α) → String → Option α
  | [], _ => none
  | e :: rest, k => if e.1 = k then some e.2 else assocGet rest k

/-- Update-or-append on an insertion-ordered association list (Python
dict write `d[k] = v`): overwrite the entry holding the key in place,
else append at the end. -/
def assocSet {α : Type} : List (String × α) → String → α → List (String × α)
  | [], k, v => [(k, v)]
  | e :: rest, k, v => if e.1 = k then (k, v) :: rest else e :: assocSet rest k v

/-
Symbol extraction from nearby text: app.py `background_process`,
lines 108-114.
-/

/-- Character class stripped from each token before the symbol test:
Python `word.strip('.,;:()')` (app.py line 111). -/
def isSymPunct (c : Char) : Bool :=
  c = '.' || c = ',' || c = ';' || c = ':' || c = '(' || c = ')'

/-- Strip the punctuation characters `.,;:()` from both ends of a token
(app.py line 111). -/
def stripPunct (w : String) : String := stripEnds isSymPunct w

/-- The token test of app.py line 112: alphanumeric, fully uppercase,
length between 2 and 6 inclusive. -/
def qualifiesTok (w : String) : Bool :=
  pyIsAlnum w && pyIsUpper w && (2 ≤ w.length && w.length ≤ 6)

/-- The token loop of app.py lines 110-114: the symbol is the first
stripped token passing `qualifiesTok`; with no such token it stays at
its initial value `"UNKNOWN"`. -/
def extractSymbolAux : List String → String
  | [] => "UNKNOWN"
  | w :: ws =>
      let w2 := stripPunct w
      if qualifiesTok w2 then w2 else extractSymbolAux ws

/-- Symbol extraction from the recognized nearby text (app.py
lines 108-114). -/
def extractSymbol (t : String) : String := extractSymbolAux (pySplit t)

/-
Grouping as performed inline in `background_process` (app.py
lines 134-176).
-/

/-- The OCR cleanup dict literal of app.py lines 149-153. -/
def clean_map_app_list : List (String × String) :=
  [("AIE", "A1E"), ("AlE", "A1E"), ("AE", "A1E"), ("A1", "A1"),
   ("BLOG", "A1E"), ("JOT", "A1E"), ("TA", "A1E"), ("T", "W"),
   ("I", "W"), ("O", "0"), ("S", "5")]

/-- `clean_map.get(sym, sym)` of app.py line 154. -/
def clean_map_app (s : String) : String :=
  (assocGet clean_map_app_list s).getD s

/-- The hardcoded fallback dict literal of app.py lines 136-143. -/
def fallback_app_list : List (String × String) :=
  [("A1", "2x4 LED Emergency Fixture"), ("A1E", "Exit/Emergency Combo Unit"),
   ("W", "Wall-Mounted Emergency LED"), ("P", "Parking Lot Light"),
   ("EL", "Emergency Light"), ("EX", "Exit Sign")]

/-- `fallback.get(sym, ...)` before the default kicks in (app.py
line 165). -/
def fallback_app (s : String) : Option String :=
  assocGet fallback_app_list s

/-- The rulebook scan of app.py lines 158-161: the first `table_row`
whose stripped symbol equals `sym` supplies its description (the loop
breaks at the first match). -/
def rulebookScan : List RulebookItem → String → Option String
  | [], _ => none
  | RulebookItem.tableRow sym d _ :: rest, s =>
      if pyStrip sym = s then some d else rulebookScan rest s
  | RulebookItem.note _ _ :: rest, s => rulebookScan rest s

/-- Description resolution of app.py lines 157-165: the rulebook scan
first; Python's `if not desc:` sends both a missing match and an empty
matched description to the fallback table, then to the generic default. -/
def resolveApp (rb : List RulebookItem) (s : String) : String :=
  match rulebookScan rb s with
  | some d => if d = "" then (fallback_app s).getD "Generic Emergency Light" else d
  | none => (fallback_app s).getD "Generic Emergency Light"

/-- Does the summary association list already hold this key?  Python
`key not in summary` (app.py line 168). -/
def hasKey : List (String × Nat × String) → String → Bool
  | [], _ => false
  | e :: rest, k => if e.1 = k then true else hasKey rest k

/-- Increment the count stored under a key (app.py line 170,
`summary[key]["count"] += 1`); keys are unique in every summary this is
applied to, so updating the first hit is the dict update. -/
def bumpCount : List (String × Nat × String) → String → List (String × Nat × String)
  | [], _ => []
  | e :: rest, k =>
      if e.1 = k then (e.1, e.2.1 + 1, e.2.2) :: rest else e :: bumpCount rest k

/-- One iteration of the summary loop of app.py lines 145-170: clean the
symbol, resolve a description, insert a zero-count entry when the key is
new, and increment the count. -/
def summaryStepApp (rb : List RulebookItem) (summary : List (String × Nat × String))
    (det : Detection) : List (String × Nat × String) :=
  let sym := clean_map_app det.symbol
  let desc := resolveApp rb sym
  let key := "Light_" ++ sym
  let s1 := if hasKey summary key then summary else summary ++ [(key, 0, desc)]
  bumpCount s1 key

/-- The whole summary loop of app.py lines 145-170 over all detections,
starting from the empty dict of line 135. -/
def groupSummaryApp (rb : List RulebookItem) (dets : List Detection) :
    List (String × Nat × String) :=
  dets.foldl (summaryStepApp rb) []

/-- Python `k.replace("Light_", "")` on a character list: a left-to-right
scan that deletes each non-overlapping occurrence of `Light_`
(app.py line 175). -/
def stripLightAux : List Char → List Char
  | 'L' :: 'i' :: 'g' :: 'h' :: 't' :: '_' :: rest => stripLightAux rest
  | c :: rest => c :: stripLightAux rest
  | [] => []

/-- Python `k.replace("Light_", "")` (app.py line 175). -/
def stripLight (s : String) : String := String.mk (stripLightAux s.toList)

/-- The final-result loop of app.py lines 173-176: re-key every summary
entry by its tag (the key with `Light_` removed) into a fresh dict. -/
def finalResultApp (rb : List RulebookItem) (dets : List Detection) :
    List (String × Nat × String) :=
  (groupSummaryApp rb dets).foldl
    (fun acc e => assocSet acc (stripLight e.1) (e.2.1, e.2.2)) []

/-
`group_lights` of utils.py, lines 126-160.
-/

/-- Normalization applied to each table-row symbol when building the
symbol-description map (utils.py lines 131-132):
`item["symbol"].strip().replace('O','0').replace('l','1').replace('I','1')`;
each replacement is single-character, so the three sequential scans are
three character maps. -/
def normTableSym (s : String) : String :=
  subChar 'I' '1' (subChar 'l' '1' (subChar 'O' '0' (pyStrip s)))

/-- One iteration of the `symbol_desc` building loop (utils.py
lines 129-134): only `table_row` records whose normalized symbol has at
most 5 characters and is alphanumeric enter the dict. -/
def symbolDescStep (m : List (String × String)) (item : RulebookItem) :
    List (String × String) :=
  match item with
  | RulebookItem.note _ _ => m
  | RulebookItem.tableRow s d _ =>
      let sym := normTableSym s
      if sym.length ≤ 5 && pyIsAlnum sym then assocSet m sym d else m

/-- The `symbol_desc` dict of utils.py lines 128-134. -/
def symbol_desc (rb : List RulebookItem) : List (String × String) :=
  rb.foldl symbolDescStep []

/-- The fallback dict literal of utils.py lines 136-140. -/
def fallback_utils_list : List (String × String) :=
  [("A1", "2x4 LED Emergency Fixture"), ("A1E", "Exit/Emergency Combo Unit"),
   ("W", "Wall-Mounted Emergency LED")]

/-- `fallback.get(sym, ...)` before the default kicks in (utils.py
line 153). -/
def fallback_utils (s : String) : Option String :=
  assocGet fallback_utils_list s

/-- The OCR cleanup dict literal of utils.py lines 147-150. -/
def clean_map_utils_list : List (String × String) :=
  [("AIE", "A1E"), ("AlE", "A1E"), ("AE", "A1E"), ("A1", "A1"),
   ("BLOG", "A1E"), ("JOT", "A1E"), ("TA", "A1E"), ("T", "W")]

/-- `clean_map.get(sym, sym)` of utils.py line 151. -/
def clean_map_utils (s : String) : String :=
  (assocGet clean_map_utils_list s).getD s

/-- Description resolution of utils.py line 153:
`symbol_desc.get(sym, fallback.get(sym, "Generic Emergency Light"))`. -/
def resolveUtils (m : List (String × String)) (s : String) : String :=
  (assocGet m s).getD ((fallback_utils s).getD "Generic Emergency Light")

/-- One iteration of the summary loop of utils.py lines 143-158. -/
def summaryStepUtils (m : List (String × String)) (summary : List (String × Nat × String))
    (det : Detection) : List (String × Nat × String) :=
  let sym := clean_map_utils det.symbol
  let desc := resolveUtils m sym
  let key := "Light_" ++ sym
  let s1 := if hasKey summary key then summary else summary ++ [(key, 0, desc)]
  bumpCount s1 key

/-- `group_lights(detections, rulebook)` of utils.py lines 126-160,
returning the summary dict (the Python function wraps it as
`{"summary": summary}`). -/
def group_lights (dets : List Detection) (rb : List RulebookItem) :
    List (String × Nat × String) :=
  dets.foldl (summaryStepUtils (symbol_desc rb)) []

/-
The table-row admission filter of the rulebook builder
(`extract_notes_and_table`, utils.py lines 104-121), applied to each
recognized line of the schedule-table region.  The whitespace collapse
`re.sub(r'\s+', ' ', line.strip())` of line 106 does not change the
result of the subsequent `line.split()`, so the tokenization is modelled
directly by `pySplit`.
-/

/-- Python `" ".join(parts)`. -/
def joinSpace : List String → String
  | [] => ""
  | [w] => w
  | w :: rest => w ++ " " ++ joinSpace rest

/-- The per-line table-row parse of utils.py lines 109-121: at least
three whitespace tokens, and a first token that is at most 6 characters,
alphanumeric and uppercase; the description is tokens 1 to 4 joined by
single spaces. -/
def parseTableLine (sheet : String) (line : String) : Option RulebookItem :=
  let parts := pySplit line
  if parts.length < 3 then none
  else
    match parts with
    | [] => none
    | sym :: rest =>
        if sym.length ≤ 6 && pyIsAlnum sym && pyIsUpper sym then
          some (RulebookItem.tableRow sym (joinSpace (rest.take 4)) sheet)
        else none

/-- The invariant the builder's filter grants every emitted table row:
symbol at most 6 characters, alphanumeric and uppercase (utils.py
line 114); notes are unconstrained here. -/
def rowValid : RulebookItem → Prop
  | RulebookItem.note _ _ => True
  | RulebookItem.tableRow s _ _ =>
      s.length ≤ 6 ∧ pyIsAlnum s = true ∧ pyIsUpper s = true

/-
Region crops.  A numpy basic slice `image[a:b, c:d]` follows Python
slice-index resolution: a negative index is taken relative to the end of
the axis, then the value is clamped into the axis extent; the slice
itself never raises.  `pySliceIdx` is that resolution for one bound.
-/

/-- Python slice-index resolution for an axis of length `len`: negative
indices count from the end (and floor at 0), nonnegative indices are
capped at `len`. -/
def pySliceIdx (len : Nat) (i : Int) : Nat :=
  if i < 0 then (if (len : Int) + i < 0 then 0 else ((len : Int) + i).toNat)
  else min i.toNat len

/-- Modelled from the spec: the clamping the spec demands of every crop
bound, "clamped to the image edges" — a negative bound becomes 0 and a
large bound becomes the axis extent, with no wrap-around. -/
def clampIdx (len : Nat) (i : Int) : Nat :=
  if i < 0 then 0 else min i.toNat len

/-- Row and column bounds of the notes crop `image[50:400, 50:700]`
(utils.py line 87) as numpy resolves them. -/
def notesCrop (h w : Nat) : (Nat × Nat) × (Nat × Nat) :=
  ((pySliceIdx h 50, pySliceIdx h 400), (pySliceIdx w 50, pySliceIdx w 700))

/-- Modelled from the spec: the notes crop with every bound clamped. -/
def notesCropClamped (h w : Nat) : (Nat × Nat) × (Nat × Nat) :=
  ((clampIdx h 50, clampIdx h 400), (clampIdx w 50, clampIdx w 700))

/-- Row and column bounds of the schedule-table crop
`image[h-600:h-100, w-800:w-100]` (utils.py line 100) as numpy resolves
them. -/
def tableCrop (h w : Nat) : (Nat × Nat) × (Nat × Nat) :=
  ((pySliceIdx h ((h : Int) - 600), pySliceIdx h ((h : Int) - 100)),
   (pySliceIdx w ((w : Int) - 800), pySliceIdx w ((w : Int) - 100)))

/-- Modelled from the spec: the schedule-table crop with every bound
clamped. -/
def tableCropClamped (h w : Nat) : (Nat × Nat) × (Nat × Nat) :=
  ((clampIdx h ((h : Int) - 600), clampIdx h ((h : Int) - 100)),
   (clampIdx w ((w : Int) - 800), clampIdx w ((w : Int) - 100)))

/-- Row and column bounds of the nearby-text crop of
`extract_nearby_text` (utils.py lines 58-67): the bounding-box center
(Python `//` is floor division, `Int.fdiv`), padded and explicitly
clamped with `max 0` and `min`, then resolved by the numpy slice. -/
def nearbyCrop (h w : Nat) (x1 y1 x2 y2 padding : Int) : (Nat × Nat) × (Nat × Nat) :=
  let cx := (x1 + x2).fdiv 2
  let cy := (y1 + y2).fdiv 2
  let rx1 := max 0 (cx - padding)
  let ry1 := max 0 (cy - padding)
  let rx2 := min (w : Int) (cx + padding)
  let ry2 := min (h : Int) (cy + padding)
  ((pySliceIdx h ry1, pySliceIdx h ry2), (pySliceIdx w rx1, pySliceIdx w rx2))

/-- Modelled from the spec: the nearby-text crop with every slice bound
clamped. -/
def nearbyCropClamped (h w : Nat) (x1 y1 x2 y2 padding : Int) : (Nat × Nat) × (Nat × Nat) :=
  let cx := (x1 + x2).fdiv 2
  let cy := (y1 + y2).fdiv 2
  let rx1 := max 0 (cx - padding)
  let ry1 := max 0 (cy - padding)
  let rx2 := min (w : Int) (cx + padding)
  let ry2 := min (h : Int) (cy + padding)
  ((clampIdx h ry1, clampIdx h ry2), (clampIdx w rx1, clampIdx w rx2))

/-
Job-status table and the two HTTP handlers that touch it (app.py).
-/

/-- One entry of the `processing_status` dict: in progress, complete
with the final result, or failed with a message. -/
inductive JobStatus : Type
  | inProgress
  | complete (result : List (String × Nat × String))
  | error (message : String)
deriving DecidableEq

/-- The responses the result endpoint can produce (app.py lines 58-85).
`inProgressResp` and `notFound` carry no result field by construction. -/
inductive PollResponse : Type
  | badRequest
  | notFound
  | inProgressResp (pdfName : String)
  | completeResp (pdfName : String) (result : List (String × Nat × String))
  | failedResp (details : String)
deriving DecidableEq

/-- `get_result` of app.py lines 58-85 in state-passing form: the
response together with the job-status table after the handler ran (the
handler only reads the table, so it is returned unchanged). -/
def get_result (table : List (String × JobStatus)) (pdfName : Option String) :
    PollResponse × List (String × JobStatus) :=
  match pdfName with
  | none => (PollResponse.badRequest, table)
  | some n =>
      match assocGet table n with
      | none => (PollResponse.notFound, table)
      | some JobStatus.inProgress => (PollResponse.inProgressResp n, table)
      | some (JobStatus.complete r) => (PollResponse.completeResp n r, table)
      | some (JobStatus.error m) => (PollResponse.failedResp m, table)

/-- The status write of the upload handler (app.py lines 46-47):
`if pdf_name not in processing_status: processing_status[pdf_name] =
{"status": "in_progress"}`. -/
def uploadStatusUpdate (table : List (String × JobStatus)) (name : String) :
    List (String × JobStatus) :=
  match assocGet table name with
  | some _ => table
  | none => assocSet table name JobStatus.inProgress

/-
Helper lemmas about the summary accumulation shared by the two grouping
code paths.
-/

/-- Total of the count fields of a summary association list. -/
def sumCounts (l : List (String × Nat × String)) : Nat :=
  (l.map (fun e => e.2.1)).sum

theorem sumCounts_append (l1 l2 : List (String × Nat × String)) :
    sumCounts (l1 ++ l2) = sumCounts l1 + sumCounts l2 := by
  simp [sumCounts]

theorem hasKey_append_singleton (l : List (String × Nat × String)) (k d : String) :
    hasKey (l ++ [(k, 0, d)]) k = true := by
  induction l with
  | nil => simp [hasKey]
  | cons e rest ih => by_cases he : e.1 = k <;> simp [hasKey, he, ih]

theorem sumCounts_bumpCount (l : List (String × Nat × String)) (k : String)
    (h : hasKey l k = true) : sumCounts (bumpCount l k) = sumCounts l + 1 := by
  induction l with
  | nil => simp [hasKey] at h
  | cons e rest ih =>
      by_cases he : e.1 = k
      · simp [bumpCount, he, sumCounts]
        omega
      · have h2 : hasKey rest k = true := by
          simpa [hasKey, he] using h
        simp [bumpCount, he, sumCounts] at ih ⊢
        · rw [ih h2]
          omega

/-- The shared shape of one summary-loop iteration: insert a zero-count
entry when the key is new, then increment; in both cases the total count
rises by exactly one. -/
theorem sumCounts_insert_bump (s : List (String × Nat × String)) (key desc : String) :
    sumCounts (bumpCount (if hasKey s key then s else s ++ [(key, 0, desc)]) key) =
      sumCounts s + 1 := by
  by_cases h : hasKey s key = true
  · rw [if_pos h, sumCounts_bumpCount s key h]
  · rw [if_neg (by simpa using h),
      sumCounts_bumpCount _ key (hasKey_append_singleton s key desc),
      sumCounts_append]
    simp [sumCounts]

theorem sumCounts_summaryStepApp (rb : List RulebookItem)
    (s : List (String × Nat × String)) (det : Detection) :
    sumCounts (summaryStepApp rb s det) = sumCounts s + 1 := by
  simp only [summaryStepApp]
  exact sumCounts_insert_bump s _ _

theorem sumCounts_summaryStepUtils (m : List (String × String))
    (s : List (String × Nat × String)) (det : Detection) :
    sumCounts (summaryStepUtils m s det) = sumCounts s + 1 := by
  simp only [summaryStepUtils]
  exact sumCounts_insert_bump s _ _

theorem sumCounts_foldl_app (rb : List RulebookItem) (dets : List Detection)
    (s : List (String × Nat × String)) :
    sumCounts (dets.foldl (summaryStepApp rb) s) = sumCounts s + dets.length := by
  induction dets generalizing s with
  | nil => simp
  | cons d ds ih =>
      rw [List.foldl_cons, ih, sumCounts_summaryStepApp]
      simp
      omega

theorem sumCounts_foldl_utils (m : List (String × String)) (dets : List Detection)
    (s : List (String × Nat × String)) :
    sumCounts (dets.foldl (summaryStepUtils m) s) = sumCounts s + dets.length := by
  induction dets generalizing s with
  | nil => simp
  | cons d ds ih =>
      rw [List.foldl_cons, ih, sumCounts_summaryStepUtils]
      simp
      omega

/-- C2: for every detection list and every rulebook, the sum of the
count fields over all entries of the produced summary equals the number
of detections — both for the inline grouping of `background_process`
(app.py lines 145-170) and for `group_lights` (utils.py lines 142-158). -/
theorem C2_count_invariant (rb : List RulebookItem) (dets : List Detection) :
    sumCounts (groupSummaryApp rb dets) = dets.length ∧
    sumCounts (group_lights dets rb) = dets.length := by
  constructor
  · simpa [sumCounts, groupSummaryApp] using sumCounts_foldl_app rb dets []
  · simpa [sumCounts, group_lights] using sumCounts_foldl_utils (symbol_desc rb) dets []

/-- C4: on exactly the detections A1, A1, EX and an empty rulebook, the
grouping of `background_process` produces exactly the mapping
A1 to count 2 with "2x4 LED Emergency Fixture" and EX to count 1 with
"Exit Sign" (app.py lines 134-176). -/
theorem C4_concrete_grouping :
    finalResultApp []
      [⟨"A1", (0, 0, 0, 0), "", "s1"⟩, ⟨"A1", (0, 0, 0, 0), "", "s1"⟩,
       ⟨"EX", (0, 0, 0, 0), "", "s1"⟩] =
    [("A1", 2, "2x4 LED Emergency Fixture"), ("EX", 1, "Exit Sign")] := by
  rfl

theorem assocGet_eq_some_mem {α : Type} (m : List (String × α)) (s : String) (v : α)
    (h : assocGet m s = some v) : ∃ p ∈ m, p.2 = v := by
  induction m with
  | nil => simp [assocGet] at h
  | cons e rest ih =>
      by_cases he : e.1 = s
      · simp [assocGet, he] at h
        exact ⟨e, List.mem_cons_self e rest, h⟩
      · simp [assocGet, he] at h
        obtain ⟨p, hp, hv⟩ := ih h
        exact ⟨p, List.mem_cons_of_mem e hp, hv⟩

/-- A dict read through `get(s, s)` is idempotent as soon as every value
of the dict is either absent from the keys or mapped to itself. -/
theorem dictGetD_idem (m : List (String × String))
    (hfix : ∀ p ∈ m, assocGet m p.2 = none ∨ assocGet m p.2 = some p.2) (s : String) :
    (assocGet m ((assocGet m s).getD s)).getD ((assocGet m s).getD s) =
      (assocGet m s).getD s := by
  cases hg : assocGet m s with
  | none => simp [hg]
  | some v =>
      simp only [Option.getD_some]
      obtain ⟨p, hp, hv⟩ := assocGet_eq_some_mem m s v hg
      rcases hfix p hp with h | h
      · rw [hv] at h
        simp [h]
      · rw [hv] at h
        simp [h]

/-- C6: symbol normalization is idempotent — applying the OCR-correction
map to an already-corrected symbol changes nothing, for the map of
app.py lines 148-154 and the map of utils.py lines 146-151 (every value
of either map is again mapped to itself or is no key at all). -/
theorem C6_normalization_idempotent (s : String) :
    clean_map_app (clean_map_app s) = clean_map_app s ∧
    clean_map_utils (clean_map_utils s) = clean_map_utils s := by
  constructor
  · simp only [clean_map_app]
    exact dictGetD_idem clean_map_app_list (by decide) s
  · simp only [clean_map_utils]
    exact dictGetD_idem clean_map_utils_list (by decide) s

/-- C1 counterexample: a rulebook holding a matching table_row for "W"
whose description is the empty string.  The matching entry exists
(second conjunct) yet the produced description is the fallback table's
"Wall-Mounted Emergency LED", not the rulebook's "" (Python's
`if not desc:` on app.py line 164 treats the empty description as
missing), so the claim's strict rulebook-over-fallback priority fails as
stated over every rulebook. -/
theorem C1_counterexample :
    finalResultApp [RulebookItem.tableRow "W" "" "sh"]
      [⟨"W", (0, 0, 0, 0), "", "sh"⟩] =
      [("W", 1, "Wall-Mounted Emergency LED")] ∧
    rulebookScan [RulebookItem.tableRow "W" "" "sh"] "W" = some "" ∧
    "Wall-Mounted Emergency LED" ≠ "" :=
  ⟨by rfl, by rfl, by decide⟩

/-- C1 (amended): whenever the rulebook scan finds a matching table_row
whose description is nonempty, resolution returns that description even
when the symbol also sits in the fallback table; in particular the
rulebook entry W with "Wall Pack 120V" beats the fallback's
"Wall-Mounted Emergency LED" for a single detection W
(app.py lines 156-165). -/
theorem C1_rulebook_priority :
    (∀ (rb : List RulebookItem) (s d : String),
        rulebookScan rb s = some d → d ≠ "" → (fallback_app s).isSome = true →
        resolveApp rb s = d) ∧
    finalResultApp [RulebookItem.tableRow "W" "Wall Pack 120V" "sh"]
      [⟨"W", (0, 0, 0, 0), "", "sh"⟩] = [("W", 1, "Wall Pack 120V")] := by
  constructor
  · intro rb s d hscan hne _
    simp [resolveApp, hscan, hne]
  · rfl

/-- Witness for C1: the priority theorem applied at the claim's own
concrete rulebook and symbol. -/
theorem C1_rulebook_priority_witness :
    resolveApp [RulebookItem.tableRow "W" "Wall Pack 120V" "sh"] "W" = "Wall Pack 120V" :=
  C1_rulebook_priority.1 [RulebookItem.tableRow "W" "Wall Pack 120V" "sh"] "W"
    "Wall Pack 120V" (by rfl) (by decide) (by rfl)

/-
Claim C3: behaviour of the symbol-description map on duplicate keys.
-/

theorem assocGet_assocSet_self {α : Type} (m : List (String × α)) (k : String) (v : α) :
    assocGet (assocSet m k v) k = some v := by
  induction m with
  | nil => simp [assocSet, assocGet]
  | cons e rest ih => by_cases he : e.1 = k <;> simp [assocSet, assocGet, he, ih]

theorem assocGet_assocSet_ne {α : Type} (m : List (String × α)) (k k2 : String) (v : α)
    (h : k2 ≠ k) : assocGet (assocSet m k v) k2 = assocGet m k2 := by
  induction m with
  | nil => simp [assocSet, assocGet, Ne.symm h]
  | cons e rest ih =>
      by_cases he : e.1 = k
      · simp [assocSet, assocGet, he, Ne.symm h]
      · simp [assocSet, assocGet, he, ih]

/-- Modelled from the spec's collision wording, for the amended C3: the
description of the LAST table_row record whose normalized symbol equals
the key. -/
def lastMatchDesc : List RulebookItem → String → Option String
  | [], _ => none
  | RulebookItem.note _ _ :: rest, key => lastMatchDesc rest key
  | RulebookItem.tableRow s d _ :: rest, key =>
      match lastMatchDesc rest key with
      | some d2 => some d2
      | none => if normTableSym s = key then some d else none

theorem symbol_desc_foldl_lookup (rb : List RulebookItem) (key : String)
    (hlen : key.length ≤ 5) (halnum : pyIsAlnum key = true)
    (m : List (String × String)) :
    assocGet (rb.foldl symbolDescStep m) key =
      match lastMatchDesc rb key with
      | some d => some d
      | none => assocGet m key := by
  induction rb generalizing m with
  | nil => simp [lastMatchDesc]
  | cons item rest ih =>
      match item with
      | RulebookItem.note t sh =>
          rw [List.foldl_cons]
          simpa [lastMatchDesc, symbolDescStep] using ih m
      | RulebookItem.tableRow s d sh =>
          rw [List.foldl_cons]
          by_cases hf : ((normTableSym s).length ≤ 5 && pyIsAlnum (normTableSym s)) = true
          · have hstep : symbolDescStep m (RulebookItem.tableRow s d sh) =
                assocSet m (normTableSym s) d := by
              simp [symbolDescStep, hf]
            rw [hstep, ih]
            by_cases hk : normTableSym s = key
            · cases hrest : lastMatchDesc rest key with
              | none => simp [lastMatchDesc, hrest, hk, assocGet_assocSet_self]
              | some d2 => simp [lastMatchDesc, hrest]
            · cases hrest : lastMatchDesc rest key with
              | none =>
                  simp [lastMatchDesc, hrest, hk,
                    assocGet_assocSet_ne m (normTableSym s) key d (fun he => hk he.symm)]
              | some d2 => simp [lastMatchDesc, hrest]
          · have hstep : symbolDescStep m (RulebookItem.tableRow s d sh) = m := by
              simp only [symbolDescStep]
              rw [if_neg (by simpa using hf)]
            have hk : normTableSym s ≠ key := by
              intro he
              apply hf
              rw [he]
              simp [hlen, halnum]
            rw [hstep, ih]
            cases hrest : lastMatchDesc rest key with
            | none => simp [lastMatchDesc, hrest, hk]
            | some d2 => simp [lastMatchDesc, hrest]

/-- C3 counterexample: two table_row records share the symbol W; the
symbol-description map of `group_lights` (utils.py lines 128-134) keeps
the SECOND record's description, so first-occurrence-wins fails as
stated. -/
theorem C3_counterexample :
    assocGet (symbol_desc [RulebookItem.tableRow "W" "first desc" "sh",
        RulebookItem.tableRow "W" "second desc" "sh"]) "W" = some "second desc" ∧
    some "second desc" ≠ some "first desc" :=
  ⟨by rfl, by decide⟩

/-- C3 (amended): on duplicate (normalized) table_row symbols the
symbol-description map of `group_lights` keeps the description of the
LAST such record — for every rulebook and every map key (a key is at
most 5 characters and alphanumeric, the map's admission filter),
resolving through the map yields the last matching record's
description. -/
theorem C3_duplicate_symbols_last_wins (rb : List RulebookItem) (key : String)
    (hlen : key.length ≤ 5) (halnum : pyIsAlnum key = true) :
    assocGet (symbol_desc rb) key = lastMatchDesc rb key := by
  rw [symbol_desc, symbol_desc_foldl_lookup rb key hlen halnum []]
  cases hrest : lastMatchDesc rb key <;> simp [assocGet]

/-- Witness for C3: the last-wins theorem applied to a concrete rulebook
with a duplicated symbol. -/
theorem C3_duplicate_symbols_last_wins_witness :
    assocGet (symbol_desc [RulebookItem.tableRow "A1" "one two" "sh",
        RulebookItem.tableRow "A1" "three four" "sh"]) "A1" =
      lastMatchDesc [RulebookItem.tableRow "A1" "one two" "sh",
        RulebookItem.tableRow "A1" "three four" "sh"] "A1" :=
  C3_duplicate_symbols_last_wins
    [RulebookItem.tableRow "A1" "one two" "sh", RulebookItem.tableRow "A1" "three four" "sh"]
    "A1" (by decide) (by decide)

/-
Claim C9: the admission filter of the symbol-description map versus the
admission filter of the rulebook builder.
-/

theorem dropWhile_eq_self_of_none {p : Char → Bool} (l : List Char)
    (h : ∀ c ∈ l, p c = false) : l.dropWhile p = l := by
  cases l with
  | nil => rfl
  | cons c rest => simp [List.dropWhile_cons, h c (List.mem_cons_self c rest)]

theorem alnum_not_space (c : Char) (h : c.isAlphanum = true) : pyIsSpace c = false := by
  unfold pyIsSpace
  have h1 : c ≠ ' ' := fun he => by subst he; exact absurd h (by decide)
  have h2 : c ≠ '\t' := fun he => by subst he; exact absurd h (by decide)
  have h3 : c ≠ '\n' := fun he => by subst he; exact absurd h (by decide)
  have h4 : c ≠ '\r' := fun he => by subst he; exact absurd h (by decide)
  have h5 : c ≠ '\x0b' := fun he => by subst he; exact absurd h (by decide)
  have h6 : c ≠ '\x0c' := fun he => by subst he; exact absurd h (by decide)
  simp [h1, h2, h3, h4, h5, h6]

theorem pyStrip_eq_self_of_alnum (s : String) (h : pyIsAlnum s = true) : pyStrip s = s := by
  have hall : ∀ c ∈ s.toList, Char.isAlphanum c = true := by
    unfold pyIsAlnum at h
    rw [Bool.and_eq_true] at h
    exact fun c hc => List.all_eq_true.mp h.2 c hc
  have hsp : ∀ c ∈ s.toList, pyIsSpace c = false :=
    fun c hc => alnum_not_space c (hall c hc)
  unfold pyStrip stripEnds
  rw [dropWhile_eq_self_of_none s.toList hsp,
    dropWhile_eq_self_of_none s.toList.reverse
      (fun c hc => hsp c (List.mem_reverse.mp hc)),
    List.reverse_reverse]
  cases s
  rfl

theorem subChar_length (a b : Char) (s : String) : (subChar a b s).length = s.length := by
  cases s with
  | mk data => simp [subChar, String.length, String.toList]

theorem normTableSym_length_of_alnum (s : String) (h : pyIsAlnum s = true) :
    (normTableSym s).length = s.length := by
  unfold normTableSym
  rw [subChar_length, subChar_length, subChar_length, pyStrip_eq_self_of_alnum s h]

/-- C9: a table_row whose normalized symbol is longer than 5 characters
or not alphanumeric contributes nothing to the symbol-description map of
`group_lights` (utils.py lines 128-134); since character substitution
keeps the length of an alphanumeric symbol, a 6-character symbol — which
the rulebook builder admits (utils.py line 114) — can never supply a
description through this map, for every rulebook input. -/
theorem C9_six_char_symbols_unreachable :
    (∀ (pre post : List RulebookItem) (s d sh : String),
        ((normTableSym s).length ≤ 5 && pyIsAlnum (normTableSym s)) = false →
        symbol_desc (pre ++ RulebookItem.tableRow s d sh :: post) =
          symbol_desc (pre ++ post)) ∧
    (∀ s : String, s.length = 6 → pyIsAlnum s = true → (normTableSym s).length = 6) ∧
    (∀ (pre post : List RulebookItem) (s d sh : String),
        s.length = 6 → pyIsAlnum s = true →
        symbol_desc (pre ++ RulebookItem.tableRow s d sh :: post) =
          symbol_desc (pre ++ post)) := by
  have hdrop : ∀ (pre post : List RulebookItem) (s d sh : String),
      ((normTableSym s).length ≤ 5 && pyIsAlnum (normTableSym s)) = false →
      symbol_desc (pre ++ RulebookItem.tableRow s d sh :: post) =
        symbol_desc (pre ++ post) := by
    intro pre post s d sh h
    unfold symbol_desc
    rw [List.foldl_append, List.foldl_append, List.foldl_cons]
    congr 1
    simp [symbolDescStep, h]
  have hlen : ∀ s : String, s.length = 6 → pyIsAlnum s = true →
      (normTableSym s).length = 6 := by
    intro s h6 halnum
    rw [normTableSym_length_of_alnum s halnum, h6]
  refine ⟨hdrop, hlen, ?_⟩
  intro pre post s d sh h6 halnum
  apply hdrop
  rw [Bool.and_eq_false_iff]
  left
  rw [hlen s h6 halnum]
  decide

/-- Witness for C9: a builder-admissible 6-character symbol whose table
row leaves the symbol-description map untouched. -/
theorem C9_six_char_symbols_unreachable_witness :
    symbol_desc [RulebookItem.tableRow "AB12CD" "x y" "sh"] = symbol_desc [] :=
  C9_six_char_symbols_unreachable.2.2 [] [] "AB12CD" "x y" "sh" (by decide) (by decide)

/-
Claim C5: unparseable nearby text yields the symbol UNKNOWN, which the
grouping resolves to the generic default.
-/

theorem extractSymbolAux_unknown (ws : List String)
    (h : ∀ w ∈ ws, qualifiesTok (stripPunct w) = false) :
    extractSymbolAux ws = "UNKNOWN" := by
  induction ws with
  | nil => rfl
  | cons w ws ih =>
      simp only [extractSymbolAux, h w (List.mem_cons_self w ws)]
      simp only [Bool.false_eq_true, if_false]
      exact ih (fun w2 hw2 => h w2 (List.mem_cons_of_mem w hw2))

theorem rulebookScan_unknown_none (rb : List RulebookItem)
    (hv : ∀ item ∈ rb, rowValid item) : rulebookScan rb "UNKNOWN" = none := by
  induction rb with
  | nil => rfl
  | cons item rest ih =>
      have hrest := ih (fun i hi => hv i (List.mem_cons_of_mem item hi))
      cases item with
      | note t sh => simpa [rulebookScan] using hrest
      | tableRow s d sh =>
          obtain ⟨hlen, halnum, hupper⟩ := hv _ (List.mem_cons_self _ _)
          have hne : pyStrip s ≠ "UNKNOWN" := by
            rw [pyStrip_eq_self_of_alnum s halnum]
            intro he
            rw [he] at hlen
            exact absurd hlen (by decide)
          simpa [rulebookScan, hne] using hrest

/-- C5: when no whitespace token of the nearby text, stripped of the
punctuation `.,;:()`, is alphanumeric, fully uppercase and 2 to 6
characters long, the extracted symbol is exactly UNKNOWN (app.py
lines 108-114); and for every rulebook whose table rows pass the
builder's admission filter (utils.py line 114, so every symbol has at
most 6 characters — UNKNOWN has 7), the grouping resolves UNKNOWN to the
generic default "Generic Emergency Light" (app.py lines 145-165); the
third part ties the hypothesis to the builder: every table row the
builder's line parse emits passes that filter. -/
theorem C5_unknown_symbol_default :
    (∀ t : String, (∀ w ∈ pySplit t, qualifiesTok (stripPunct w) = false) →
        extractSymbol t = "UNKNOWN") ∧
    (∀ rb : List RulebookItem, (∀ item ∈ rb, rowValid item) →
        resolveApp rb (clean_map_app "UNKNOWN") = "Generic Emergency Light") ∧
    (∀ (sheet line : String) (item : RulebookItem),
        parseTableLine sheet line = some item → rowValid item) := by
  refine ⟨?_, ?_, ?_⟩
  · intro t h
    exact extractSymbolAux_unknown (pySplit t) h
  · intro rb hv
    have hclean : clean_map_app "UNKNOWN" = "UNKNOWN" := rfl
    rw [hclean]
    unfold resolveApp
    rw [rulebookScan_unknown_none rb hv]
    rfl
  · intro sheet line item h
    simp only [parseTableLine] at h
    split at h
    · exact absurd h (by simp)
    · split at h
      · exact absurd h (by simp)
      · split at h
        · rename_i sym rest hcond
          rw [Option.some_inj] at h
          subst h
          rw [Bool.and_eq_true, Bool.and_eq_true] at hcond
          exact ⟨of_decide_eq_true hcond.1.1, hcond.1.2, hcond.2⟩
        · exact absurd h (by simp)

/-- Witness for C5: empty nearby text yields UNKNOWN, and against a
builder-shaped one-row rulebook UNKNOWN resolves to the generic default. -/
theorem C5_unknown_symbol_default_witness :
    extractSymbol "" = "UNKNOWN" ∧
    resolveApp [RulebookItem.tableRow "EM1" "Emergency Unit A" "sh"]
      (clean_map_app "UNKNOWN") = "Generic Emergency Light" :=
  ⟨C5_unknown_symbol_default.1 "" (by decide),
   C5_unknown_symbol_default.2.1 [RulebookItem.tableRow "EM1" "Emergency Unit A" "sh"]
     (by
       intro item hi
       rw [List.mem_singleton] at hi
       subst hi
       exact ⟨by decide, by decide, by decide⟩)⟩

/-
Claim C7: crop-bound behaviour.
-/

theorem pySliceIdx_eq_clampIdx_of_nonneg (len : Nat) (i : Int) (h : 0 ≤ i) :
    pySliceIdx len i = clampIdx len i := by
  unfold pySliceIdx clampIdx
  rw [if_neg (not_lt.mpr h), if_neg (not_lt.mpr h)]

theorem crop_pair_eq (h w : Nat) (a b c d : Int) (ha : 0 ≤ a) (hb : 0 ≤ b)
    (hc : 0 ≤ c) (hd : 0 ≤ d) :
    ((pySliceIdx h a, pySliceIdx h b), (pySliceIdx w c, pySliceIdx w d)) =
      ((clampIdx h a, clampIdx h b), (clampIdx w c, clampIdx w d)) := by
  rw [pySliceIdx_eq_clampIdx_of_nonneg _ _ ha, pySliceIdx_eq_clampIdx_of_nonneg _ _ hb,
    pySliceIdx_eq_clampIdx_of_nonneg _ _ hc, pySliceIdx_eq_clampIdx_of_nonneg _ _ hd]

/-- C7 counterexample: a 400-pixel-high page.  The schedule-table crop
`image[h-600:h-100, ...]` resolves its negative start bound `-200`
relative to the bottom edge — row 200 — where clamping to the image
edges would give row 0, so bounds exceeding the extents of a small
image wrap instead of clamping. -/
theorem C7_counterexample :
    (tableCrop 400 1000).1.1 = 200 ∧
    (tableCropClamped 400 1000).1.1 = 0 ∧
    tableCrop 400 1000 ≠ tableCropClamped 400 1000 :=
  ⟨by decide, by decide, by decide⟩

/-- C7 (amended): the detection-centered nearby-text crop (utils.py
lines 58-67) is clamped to the image edges for every image size and
every detector-produced (nonnegative) bounding box; the notes crop has
fixed nonnegative bounds and is clamped for every image size; the
schedule-table crop is clamped whenever the page is at least 600 pixels
high and 800 wide, while smaller pages make its negative bounds index
from the opposite edge (the counterexample); and no resolved bound ever
exceeds the axis extent, so no crop can fail. -/
theorem C7_crops_clamped :
    (∀ (h w : Nat) (x1 y1 x2 y2 p : Int), 0 ≤ x1 → 0 ≤ y1 → 0 ≤ x2 → 0 ≤ y2 → 0 ≤ p →
        nearbyCrop h w x1 y1 x2 y2 p = nearbyCropClamped h w x1 y1 x2 y2 p) ∧
    (∀ h w : Nat, notesCrop h w = notesCropClamped h w) ∧
    (∀ h w : Nat, 600 ≤ h → 800 ≤ w → tableCrop h w = tableCropClamped h w) ∧
    (∀ (len : Nat) (i : Int), pySliceIdx len i ≤ len) := by
  refine ⟨?_, ?_, ?_, ?_⟩
  · intro h w x1 y1 x2 y2 p hx1 hy1 hx2 hy2 hp
    have hcx : 0 ≤ (x1 + x2).fdiv 2 := Int.fdiv_nonneg (by omega) (by omega)
    have hcy : 0 ≤ (y1 + y2).fdiv 2 := Int.fdiv_nonneg (by omega) (by omega)
    exact crop_pair_eq h w _ _ _ _ (le_max_left 0 _)
      (le_min (Int.natCast_nonneg h) (by omega))
      (le_max_left 0 _)
      (le_min (Int.natCast_nonneg w) (by omega))
  · intro h w
    exact crop_pair_eq h w 50 400 50 700 (by decide) (by decide) (by decide) (by decide)
  · intro h w hh hw
    exact crop_pair_eq h w _ _ _ _ (by omega) (by omega) (by omega) (by omega)
  · intro len i
    unfold pySliceIdx
    split_ifs with h1 h2
    · exact Nat.zero_le len
    · omega
    · exact min_le_right _ _

/-- Witness for C7: the clamping theorem applied at a full-size page and
one concrete detection box. -/
theorem C7_crops_clamped_witness :
    nearbyCrop 1000 1200 10 20 60 50 50 = nearbyCropClamped 1000 1200 10 20 60 50 50 ∧
    tableCrop 1000 1200 = tableCropClamped 1000 1200 :=
  ⟨C7_crops_clamped.1 1000 1200 10 20 60 50 50 (by decide) (by decide) (by decide)
      (by decide) (by decide),
   C7_crops_clamped.2.2.1 1000 1200 (by decide) (by decide)⟩

/-
Claim C8: the result-polling endpoint.
-/

/-- C8: polling an unknown document name answers not-found; polling an
in-progress job answers the in-progress response, which carries no
result field by construction; and polling a completed job returns the
completed response with its stored result, leaves the status table
untouched, and hence answers identically on a repeated poll
(app.py lines 58-85). -/
theorem C8_poll_semantics :
    (∀ (t : List (String × JobStatus)) (n : String),
        assocGet t n = none → (get_result t (some n)).1 = PollResponse.notFound) ∧
    (∀ (t : List (String × JobStatus)) (n : String),
        assocGet t n = some JobStatus.inProgress →
        (get_result t (some n)).1 = PollResponse.inProgressResp n) ∧
    (∀ (t : List (String × JobStatus)) (n : String) (r : List (String × Nat × String)),
        assocGet t n = some (JobStatus.complete r) →
        (get_result t (some n)).1 = PollResponse.completeResp n r ∧
        (get_result t (some n)).2 = t ∧
        (get_result (get_result t (some n)).2 (some n)).1 = (get_result t (some n)).1) := by
  refine ⟨?_, ?_, ?_⟩
  · intro t n h
    simp [get_result, h]
  · intro t n h
    simp [get_result, h]
  · intro t n r h
    refine ⟨by simp [get_result, h], by simp [get_result, h], by simp [get_result, h]⟩

/-- Witness for C8: the three poll behaviours on concrete tables. -/
theorem C8_poll_semantics_witness :
    (get_result [("a.pdf", JobStatus.complete [("A1", 2, "d")])] (some "b.pdf")).1 =
      PollResponse.notFound ∧
    (get_result [("c.pdf", JobStatus.inProgress)] (some "c.pdf")).1 =
      PollResponse.inProgressResp "c.pdf" ∧
    (get_result [("a.pdf", JobStatus.complete [("A1", 2, "d")])] (some "a.pdf")).1 =
      PollResponse.completeResp "a.pdf" [("A1", 2, "d")] :=
  ⟨C8_poll_semantics.1 [("a.pdf", JobStatus.complete [("A1", 2, "d")])] "b.pdf" (by decide),
   C8_poll_semantics.2.1 [("c.pdf", JobStatus.inProgress)] "c.pdf" (by decide),
   (C8_poll_semantics.2.2 [("a.pdf", JobStatus.complete [("A1", 2, "d")])] "a.pdf"
     [("A1", 2, "d")] (by decide)).1⟩

/-
Claim C10: the upload handler's status write.
-/

/-- C10: the upload handler writes a fresh in-progress entry only when
the document name has no entry yet (app.py lines 46-47); an upload of a
name whose entry already exists leaves the whole status table unchanged,
so a prior terminal status stays visible until the background job's
unconditional terminal write (app.py lines 183-187, third part)
overwrites it. -/
theorem C10_upload_status_frame :
    (∀ (t : List (String × JobStatus)) (n : String),
        assocGet t n = none →
        assocGet (uploadStatusUpdate t n) n = some JobStatus.inProgress) ∧
    (∀ (t : List (String × JobStatus)) (n : String) (st : JobStatus),
        assocGet t n = some st → uploadStatusUpdate t n = t) ∧
    (∀ (t : List (String × JobStatus)) (n : String) (r : List (String × Nat × String)),
        assocGet (assocSet t n (JobStatus.complete r)) n = some (JobStatus.complete r)) := by
  refine ⟨?_, ?_, ?_⟩
  · intro t n h
    simp [uploadStatusUpdate, h, assocGet_assocSet_self]
  · intro t n st h
    simp [uploadStatusUpdate, h]
  · intro t n r
    exact assocGet_assocSet_self t n _

/-- Witness for C10: a fresh upload creates the in-progress entry, and a
re-upload of a completed document leaves its table entry as it was. -/
theorem C10_upload_status_frame_witness :
    assocGet (uploadStatusUpdate [] "doc.pdf") "doc.pdf" = some JobStatus.inProgress ∧
    uploadStatusUpdate [("doc.pdf", JobStatus.complete [])] "doc.pdf" =
      [("doc.pdf", JobStatus.complete [])] :=
  ⟨C10_upload_status_frame.1 [] "doc.pdf" (by decide),
   C10_upload_status_frame.2.1 [("doc.pdf", JobStatus.complete [])] "doc.pdf"
     (JobStatus.complete []) (by decide)⟩

end AIVision







